import Mathlib

/-!
Verification of the ipfs-media-delivery-network publisher core.

Shallow embedding of the Go sources:
  * package index  (collection.ndjson manager)     — internal/index
  * package state  (state.json manager)            — internal/state
  * package pubsub (announcement message)          — internal/pubsub/message.go
  * cmd/ipfs-publisher/main.go: runScan per-file processing loop,
    the post-loop republish tail, and the periodic announcement path.

Go maps with string keys are embedded as association lists whose insert
replaces every earlier binding of the key, so lookups always see the
newest binding and key sets stay duplicate-free when built from empty.
Machine integers (Go int / int64) are embedded as Int; the program never
approaches overflow on the quantities involved (ids, versions, Unix
seconds), so no modular reduction is modelled.
-/

namespace gomap

/-- Lookup in an association list, first (newest) binding wins —
models Go map read. -/
def findA {α : Type} : List (String × α) → String → Option α
  | [], _ => none
  | (k, v) :: t, key => if k = key then some v else findA t key

/-- Remove every binding of a key — models Go delete on a map. -/
def eraseA {α : Type} : List (String × α) → String → List (String × α)
  | [], _ => []
  | (k, v) :: t, key => if k = key then eraseA t key else (k, v) :: eraseA t key

/-- Insert/replace a binding — models Go map write. -/
def insertA {α : Type} (m : List (String × α)) (key : String) (v : α) :
    List (String × α) :=
  (key, v) :: eraseA m key

/-- The keys of the list are pairwise distinct (true of every embedded Go map). -/
def KeysNodup {α : Type} (m : List (String × α)) : Prop :=
  m.Pairwise (fun a b => a.1 ≠ b.1)

theorem findA_eraseA {α : Type} (m : List (String × α)) (k k' : String) :
    findA (eraseA m k) k' = if k = k' then none else findA m k' := by
  induction m with
  | nil => simp [eraseA, findA]
  | cons p t ih =>
    by_cases hp : p.1 = k
    · rw [eraseA, if_pos hp, ih]
      by_cases hk : k = k'
      · simp [hk]
      · have hp' : p.1 ≠ k' := by rw [hp]; exact hk
        rw [if_neg hk, if_neg hk, findA, if_neg hp']
    · rw [eraseA, if_neg hp]
      by_cases hk' : p.1 = k'
      · have hk : k ≠ k' := fun h => hp (by rw [h]; exact hk')
        cases p with
        | mk a b => rw [findA, if_pos hk', if_neg hk, findA, if_pos hk']
      · cases p with
        | mk a b =>
          rw [findA, if_neg hk', ih]
          by_cases hk : k = k'
          · simp [hk]
          · rw [if_neg hk, if_neg hk, findA, if_neg hk']

theorem findA_insertA {α : Type} (m : List (String × α)) (k k' : String) (v : α) :
    findA (insertA m k v) k' = if k = k' then some v else findA m k' := by
  rw [insertA, findA]
  by_cases h : k = k'
  · rw [if_pos h, if_pos h]
  · rw [if_neg h, if_neg h, findA_eraseA, if_neg h]

theorem findA_some_mem {α : Type} {m : List (String × α)} {k : String} {v : α} :
    findA m k = some v → (k, v) ∈ m := by
  induction m with
  | nil => intro h; simp [findA] at h
  | cons p t ih =>
    intro h
    rw [findA] at h
    by_cases hp : p.1 = k
    · rw [if_pos hp] at h
      injection h with hv
      apply List.mem_cons.mpr
      left
      cases p with
      | mk a b =>
        simp only at hp hv
        rw [← hp, ← hv]
    · rw [if_neg hp] at h
      exact List.mem_cons_of_mem _ (ih h)

theorem mem_eraseA {α : Type} {m : List (String × α)} {k : String}
    {p : String × α} (h : p ∈ eraseA m k) : p ∈ m ∧ p.1 ≠ k := by
  induction m with
  | nil => simp [eraseA] at h
  | cons q t ih =>
    by_cases hq : q.1 = k
    · rw [eraseA, if_pos hq] at h
      rcases ih h with ⟨h1, h2⟩
      exact ⟨List.mem_cons_of_mem _ h1, h2⟩
    · rw [eraseA, if_neg hq] at h
      rcases List.mem_cons.mp h with h1 | h1
      · exact ⟨List.mem_cons.mpr (Or.inl h1), h1 ▸ hq⟩
      · rcases ih h1 with ⟨h2, h3⟩
        exact ⟨List.mem_cons_of_mem _ h2, h3⟩

theorem eraseA_of_not_mem {α : Type} {m : List (String × α)} {k : String}
    (h : findA m k = none) : eraseA m k = m := by
  induction m with
  | nil => rfl
  | cons p t ih =>
    by_cases hp : p.1 = k
    · rw [findA, if_pos hp] at h; cases h
    · rw [findA, if_neg hp] at h
      rw [eraseA, if_neg hp, ih h]

theorem length_eraseA_of_mem {α : Type} {m : List (String × α)} {k : String}
    {v : α} (hnd : KeysNodup m) (h : findA m k = some v) :
    (eraseA m k).length + 1 = m.length := by
  induction m with
  | nil => simp [findA] at h
  | cons p t ih =>
    rcases List.pairwise_cons.mp hnd with ⟨hhead, htail⟩
    by_cases hp : p.1 = k
    · have hnone : findA t k = none := by
        cases hf : findA t k with
        | none => rfl
        | some w => exact absurd hp (hhead (k, w) (findA_some_mem hf))
      rw [eraseA, if_pos hp, eraseA_of_not_mem hnone]
      rfl
    · rw [findA, if_neg hp] at h
      rw [eraseA, if_neg hp, List.length_cons, List.length_cons, ih htail h]

end gomap

namespace index

open gomap

/-- One entry of the NDJSON index — mirrors index.Record
(fields ID, CID, Filename, Extension). -/
structure Record where
  ID : Int
  CID : String
  Filename : String
  Extension : String
deriving DecidableEq, Repr

/-- The in-memory index — mirrors index.Manager (records map plus nextID;
the indexPath field is filesystem glue and is not modelled). -/
structure Manager where
  records : List (String × Record)
  nextID : Int
deriving DecidableEq, Repr

/-- Mirrors index.New: empty records map, nextID = 1. -/
def New : Manager := { records := [], nextID := 1 }

/-- One iteration of the loop body of Manager.Load for a successfully
parsed record: store it under its Filename and bump nextID when
record.ID >= nextID. -/
def loadStep (m : Manager) (r : Record) : Manager :=
  { records := insertA m.records r.Filename r,
    nextID := if r.ID ≥ m.nextID then r.ID + 1 else m.nextID }

/-- Mirrors Manager.Load restricted to its pure content: fold the loop
body over the successfully parsed records of the file, starting from the
fresh manager produced by index.New (malformed lines are skipped by the
Go code and therefore simply absent from the input list). -/
def loadRecords (rs : List Record) : Manager :=
  rs.foldl loadStep New

/-- Mirrors Manager.Add: assign nextID, store under filename, increment. -/
def Manager.Add (m : Manager) (filename cid extension : String) :
    Record × Manager :=
  let record : Record :=
    { ID := m.nextID, CID := cid, Filename := filename, Extension := extension }
  (record, { records := insertA m.records filename record, nextID := m.nextID + 1 })

/-- Mirrors Manager.Update: error when the filename is absent, otherwise
overwrite the CID in place. The second component is the manager after the
call (Go mutates the receiver). -/
def Manager.Update (m : Manager) (filename cid : String) :
    Except String Record × Manager :=
  match findA m.records filename with
  | none => (Except.error ("record not found: " ++ filename), m)
  | some record =>
    let updated : Record := { record with CID := cid }
    (Except.ok updated,
     { m with records := insertA m.records filename updated })

/-- Mirrors Manager.Delete: error when the filename is absent, otherwise
remove the binding. -/
def Manager.Delete (m : Manager) (filename : String) :
    Except String Unit × Manager :=
  match findA m.records filename with
  | none => (Except.error ("record not found: " ++ filename), m)
  | some _ => (Except.ok (), { m with records := eraseA m.records filename })

/-- Mirrors Manager.Get. -/
def Manager.Get (m : Manager) (filename : String) : Option Record :=
  findA m.records filename

/-- Mirrors Manager.Count (len of the records map). -/
def Manager.Count (m : Manager) : Nat :=
  m.records.length

/-- An index mutation, for reasoning about arbitrary operation sequences. -/
inductive IndexOp where
  | add (filename cid extension : String)
  | update (filename cid : String)
  | del (filename : String)
deriving DecidableEq, Repr

/-- Apply one mutation, keeping the post-call manager (errors from
Update/Delete leave the manager untouched, as in the Go code). -/
def Manager.applyOp (m : Manager) : IndexOp → Manager
  | .add f c e => (m.Add f c e).2
  | .update f c => (m.Update f c).2
  | .del f => (m.Delete f).2

/-- Apply a sequence of mutations in order. -/
def Manager.applyOps (m : Manager) (ops : List IndexOp) : Manager :=
  ops.foldl Manager.applyOp m

/-- The ids handed out by the add operations of a run, in order. -/
def assignedIds (m : Manager) : List IndexOp → List Int
  | [] => []
  | .add f c e :: rest => m.nextID :: assignedIds (m.applyOp (.add f c e)) rest
  | .update f c :: rest => assignedIds (m.applyOp (.update f c)) rest
  | .del f :: rest => assignedIds (m.applyOp (.del f)) rest

/-- Fold computing max over the ids of a record list, base 0 —
the reference value for the claim that load sets nextID to max(id)+1. -/
def maxId (rs : List Record) : Int :=
  rs.foldl (fun a r => max a r.ID) 0

theorem loadStep_nextID (m : Manager) (r : Record) :
    (loadStep m r).nextID = max m.nextID (r.ID + 1) := by
  unfold loadStep
  dsimp only
  rcases le_or_lt m.nextID r.ID with h | h
  · rw [if_pos h, max_eq_right (by omega)]
  · rw [if_neg (by omega), max_eq_left (by omega)]

theorem foldl_loadStep_nextID (rs : List Record) (m : Manager) :
    (rs.foldl loadStep m).nextID =
      rs.foldl (fun n r => max n (r.ID + 1)) m.nextID := by
  induction rs generalizing m with
  | nil => rfl
  | cons r t ih => rw [List.foldl_cons, List.foldl_cons, ih, loadStep_nextID]

theorem foldl_max_succ (rs : List Record) (n : Int) :
    rs.foldl (fun a r => max a (r.ID + 1)) (n + 1) =
      rs.foldl (fun a r => max a r.ID) n + 1 := by
  induction rs generalizing n with
  | nil => rfl
  | cons r t ih =>
    rw [List.foldl_cons, List.foldl_cons, max_add_add_right, ih]

/-- Manager.Load always leaves nextID at max(id)+1 where the max is taken
with base 0 (an empty file therefore yields nextID = 1). -/
theorem loadRecords_nextID (rs : List Record) :
    (loadRecords rs).nextID = maxId rs + 1 := by
  unfold loadRecords maxId
  rw [foldl_loadStep_nextID]
  exact foldl_max_succ rs 0

theorem foldl_max_eq_or_mem (rs : List Record) (a : Int) :
    rs.foldl (fun x r => max x r.ID) a = a ∨
      rs.foldl (fun x r => max x r.ID) a ∈ rs.map (fun r => r.ID) := by
  induction rs generalizing a with
  | nil => exact Or.inl rfl
  | cons r t ih =>
    rw [List.foldl_cons]
    rcases ih (max a r.ID) with h | h
    · rw [h]
      rcases le_total a r.ID with hle | hle
      · exact Or.inr (by rw [max_eq_right hle]; exact List.mem_cons_self _ _)
      · exact Or.inl (max_eq_left hle)
    · exact Or.inr (List.mem_cons_of_mem _ h)

/-- On a non-empty record list with non-negative ids (every id the program
ever writes is positive), maxId is attained by one of the records. -/
theorem maxId_mem (rs : List Record) (hne : rs ≠ [])
    (hnn : ∀ r ∈ rs, 0 ≤ r.ID) :
    maxId rs ∈ rs.map (fun r => r.ID) := by
  cases rs with
  | nil => exact absurd rfl hne
  | cons r t =>
    unfold maxId
    rw [List.foldl_cons, max_eq_right (hnn r (List.mem_cons_self _ _))]
    rcases foldl_max_eq_or_mem t r.ID with h | h
    · rw [h]; exact List.mem_cons_self _ _
    · exact List.mem_cons_of_mem _ h

theorem update_nextID (m : Manager) (f c : String) :
    (m.Update f c).2.nextID = m.nextID := by
  unfold Manager.Update
  cases gomap.findA m.records f <;> rfl

theorem delete_nextID (m : Manager) (f : String) :
    (m.Delete f).2.nextID = m.nextID := by
  unfold Manager.Delete
  cases gomap.findA m.records f <;> rfl

theorem applyOp_nextID_le (m : Manager) (op : IndexOp) :
    m.nextID ≤ (m.applyOp op).nextID := by
  cases op with
  | add f c e =>
    have h : (m.applyOp (IndexOp.add f c e)).nextID = m.nextID + 1 := rfl
    omega
  | update f c => rw [Manager.applyOp, update_nextID]
  | del f => rw [Manager.applyOp, delete_nextID]

theorem applyOps_nextID_le (ops : List IndexOp) (m : Manager) :
    m.nextID ≤ (m.applyOps ops).nextID := by
  induction ops generalizing m with
  | nil => exact le_refl _
  | cons op t ih =>
    exact le_trans (applyOp_nextID_le m op)
      (by rw [Manager.applyOps, List.foldl_cons]; exact ih (m.applyOp op))

theorem assignedIds_lower_bound (ops : List IndexOp) (m : Manager) :
    ∀ i ∈ assignedIds m ops, m.nextID ≤ i := by
  induction ops generalizing m with
  | nil => intro i hi; simp [assignedIds] at hi
  | cons op t ih =>
    intro i hi
    cases op with
    | add f c e =>
      rw [assignedIds] at hi
      rcases List.mem_cons.mp hi with h | h
      · exact le_of_eq h.symm
      · exact le_trans (applyOp_nextID_le m _) (ih _ i h)
    | update f c =>
      rw [assignedIds] at hi
      exact le_trans (applyOp_nextID_le m _) (ih _ i hi)
    | del f =>
      rw [assignedIds] at hi
      exact le_trans (applyOp_nextID_le m _) (ih _ i hi)

/-- The ids assigned along any operation sequence are strictly increasing:
no id is ever assigned twice, also after deletions. -/
theorem assignedIds_pairwise (ops : List IndexOp) (m : Manager) :
    (assignedIds m ops).Pairwise (fun a b => a < b) := by
  induction ops generalizing m with
  | nil => exact List.Pairwise.nil
  | cons op t ih =>
    cases op with
    | add f c e =>
      rw [assignedIds]
      refine List.pairwise_cons.mpr ⟨fun i hi => ?_, ih _⟩
      have h1 : (m.applyOp (IndexOp.add f c e)).nextID ≤ i :=
        assignedIds_lower_bound t _ i hi
      have h2 : (m.applyOp (IndexOp.add f c e)).nextID = m.nextID + 1 := rfl
      omega
    | update f c => rw [assignedIds]; exact ih _
    | del f => rw [assignedIds]; exact ih _

theorem delete_get_other (m : Manager) (f g : String) (hg : g ≠ f) :
    (m.Delete f).2.Get g = m.Get g := by
  unfold Manager.Delete Manager.Get
  cases h : gomap.findA m.records f with
  | none => rfl
  | some r =>
    dsimp only
    rw [gomap.findA_eraseA, if_neg (fun hfg => hg hfg.symm)]

end index

namespace state

open gomap

/-- Mirrors state.FileState (cid, mtime, size, indexId). -/
structure FileState where
  CID : String
  ModTime : Int
  Size : Int
  IndexID : Int
deriving DecidableEq, Repr

/-- Mirrors state.State (version, ipns, lastIndexCID, files map);
the mutex is concurrency glue and is not modelled. -/
structure State where
  Version : Int
  IPNS : String
  LastIndexCID : String
  Files : List (String × FileState)
deriving DecidableEq, Repr

/-- Mirrors state.New: version 0 and an empty files map. -/
def New : State := { Version := 0, IPNS := "", LastIndexCID := "", Files := [] }

/-- Mirrors Manager.GetFile. -/
def State.GetFile (st : State) (path : String) : Option FileState :=
  findA st.Files path

/-- Mirrors Manager.SetFile. -/
def State.SetFile (st : State) (path : String) (fs : FileState) : State :=
  { st with Files := insertA st.Files path fs }

/-- Mirrors Manager.DeleteFile. -/
def State.DeleteFile (st : State) (path : String) : State :=
  { st with Files := eraseA st.Files path }

/-- Mirrors Manager.IncrementVersion (the new state; the Go method also
returns the new version value). -/
def State.IncrementVersion (st : State) : State :=
  { st with Version := st.Version + 1 }

/-- Mirrors Manager.SetIPNS. -/
def State.SetIPNS (st : State) (ipns : String) : State :=
  { st with IPNS := ipns }

/-- Mirrors Manager.SetLastIndexCID. -/
def State.SetLastIndexCID (st : State) (cid : String) : State :=
  { st with LastIndexCID := cid }

/-- Number of tracked files, as len(GetAllFiles()) sees it. -/
def State.filesCount (st : State) : Nat :=
  st.Files.length

end state

namespace pubsub

/-- Mirrors pubsub.AnnouncementMessage (message.go): version, ipns,
base64 public key, collection size, Unix timestamp, base64 signature. -/
structure AnnouncementMessage where
  Version : Int
  IPNS : String
  PublicKey : String
  CollectionSize : Int
  Timestamp : Int
  Signature : String
deriving DecidableEq, Repr

/-- Mirrors pubsub.NewAnnouncementMessage: publicKey and signature start
out as the zero value of a Go string. -/
def NewAnnouncementMessage (version : Int) (ipns : String)
    (collectionSize : Int) (timestamp : Int) : AnnouncementMessage :=
  { Version := version, IPNS := ipns, PublicKey := "",
    CollectionSize := collectionSize, Timestamp := timestamp, Signature := "" }

/-- The external primitives message.go calls into: Go standard-library
Ed25519, standard base64, and JSON marshalling of the five-field
signing struct. They are parameters of the embedding; the claims about
message.go concern the plumbing around them, so each theorem assumes
only the standard contracts (base64 round-trip, Ed25519 sign/verify
agreement, 32-byte public keys) at the points where the code relies on
them. Bytes are lists of naturals. -/
structure CryptoPrims where
  pubOf : List Nat → List Nat
  edSign : List Nat → List Nat → List Nat
  edVerify : List Nat → List Nat → List Nat → Bool
  b64encode : List Nat → String
  b64decode : String → Option (List Nat)
  serialize : Int → String → String → Int → Int → List Nat

/-- Mirrors getBytesForSigning: marshal the message minus the signature
field, in declared field order (version, ipns, publicKey,
collectionSize, timestamp). -/
def getBytesForSigning (P : CryptoPrims) (m : AnnouncementMessage) : List Nat :=
  P.serialize m.Version m.IPNS m.PublicKey m.CollectionSize m.Timestamp

/-- Mirrors AnnouncementMessage.Sign: embed the base64 public key derived
from the private key, serialize the unsigned body, sign it, embed the
base64 signature. (The only Go error path is a JSON marshal failure,
which cannot occur for this struct; serialization is total here.) -/
def Sign (P : CryptoPrims) (m : AnnouncementMessage) (privateKey : List Nat) :
    AnnouncementMessage :=
  let publicKey := P.pubOf privateKey
  let m1 := { m with PublicKey := P.b64encode publicKey }
  let data := getBytesForSigning P m1
  let signature := P.edSign privateKey data
  { m1 with Signature := P.b64encode signature }

/-- Mirrors AnnouncementMessage.Verify: decode the public key, check its
length against the Ed25519 public key size (32), decode the signature,
rebuild the unsigned pre-image with getBytesForSigning, and verify. -/
def Verify (P : CryptoPrims) (m : AnnouncementMessage) : Except String Unit :=
  match P.b64decode m.PublicKey with
  | none => Except.error "failed to decode public key"
  | some publicKeyBytes =>
    if publicKeyBytes.length ≠ 32 then
      Except.error "invalid public key size"
    else
      match P.b64decode m.Signature with
      | none => Except.error "failed to decode signature"
      | some signature =>
        let data := getBytesForSigning P m
        if P.edVerify publicKeyBytes data signature then
          Except.ok ()
        else
          Except.error "signature verification failed"

/-- Mirrors AnnouncementMessage.Validate, with the receiver clock passed
in for time.Now().Unix(): required fields, version >= 1,
collectionSize >= 0, 0 < timestamp <= now + 3600 seconds. -/
def Validate (m : AnnouncementMessage) (now : Int) : Except String Unit :=
  if m.Version < 1 then Except.error "invalid version: must be >= 1"
  else if m.IPNS = "" then Except.error "IPNS field is required"
  else if m.PublicKey = "" then Except.error "publicKey field is required"
  else if m.CollectionSize < 0 then
    Except.error "invalid collectionSize: must be >= 0"
  else if m.Timestamp ≤ 0 then Except.error "invalid timestamp: must be > 0"
  else if m.Timestamp > now + 3600 then
    Except.error "timestamp is too far in the future"
  else if m.Signature = "" then Except.error "signature field is required"
  else Except.ok ()

end pubsub

namespace base64

/-- Value of one character of the standard base64 alphabet, as used by
the Go standard library StdEncoding that message.go decodes with. -/
def b64val (c : Char) : Option Nat :=
  if 65 ≤ c.toNat ∧ c.toNat ≤ 90 then some (c.toNat - 65)
  else if 97 ≤ c.toNat ∧ c.toNat ≤ 122 then some (c.toNat - 97 + 26)
  else if 48 ≤ c.toNat ∧ c.toNat ≤ 57 then some (c.toNat - 48 + 52)
  else if c = '+' then some 62
  else if c = '/' then some 63
  else none

/-- Decode base64 text four characters at a time; models Go
base64.StdEncoding.DecodeString: the length must be a multiple of four,
padding may only close the final quantum, and any character outside the
alphabet is an error. -/
def decodeChunks : List Char → Option (List Nat)
  | [] => some []
  | a :: b :: c :: d :: rest =>
    match b64val a, b64val b with
    | some va, some vb =>
      if c = '=' then
        if d = '=' ∧ rest = [] then some [va * 4 + vb / 16]
        else none
      else
        match b64val c with
        | some vc =>
          if d = '=' then
            if rest = [] then some [va * 4 + vb / 16, vb % 16 * 16 + vc / 4]
            else none
          else
            match b64val d with
            | some vd =>
              match decodeChunks rest with
              | some tail =>
                some ((va * 4 + vb / 16) :: (vb % 16 * 16 + vc / 4) ::
                      (vc % 4 * 64 + vd) :: tail)
              | none => none
            | none => none
        | none => none
    | _, _ => none
  | _ => none

/-- Go base64.StdEncoding.DecodeString on a string. -/
def b64decode (s : String) : Option (List Nat) :=
  decodeChunks s.toList

end base64

namespace publisher

open gomap

/-- Mirrors scanner.FileInfo: what the directory walk reports per file. -/
structure FileInfo where
  Path : String
  Name : String
  Extension : String
  Size : Int
  ModTime : Int
deriving DecidableEq, Repr

/-- One iteration of the runScan per-file loop (main.go):
  * if the path is in state with matching (mtime, size): skip, no upload;
  * otherwise open the file (openOk models os.Open success) and upload
    (addResult models the CID returned by ipfsClient.Add, none = failure);
  * on success: when the path already existed in state the code only calls
    indexMgr.Update(file.Name, cid) and ignores its error; when it is new,
    indexMgr.Add assigns an id and stateManager.SetFile records it.
Returns the state, the index and the number of ipfsClient.Add calls made
for this file. -/
def processOneFile (st : state.State) (idx : index.Manager) (file : FileInfo)
    (openOk : Bool) (addResult : Option String) :
    state.State × index.Manager × Nat :=
  match st.GetFile file.Path with
  | some fileState =>
    if fileState.ModTime = file.ModTime ∧ fileState.Size = file.Size then
      (st, idx, 0)
    else if openOk = false then
      (st, idx, 0)
    else
      match addResult with
      | none => (st, idx, 1)
      | some cid => (st, (idx.Update file.Name cid).2, 1)
  | none =>
    if openOk = false then
      (st, idx, 0)
    else
      match addResult with
      | none => (st, idx, 1)
      | some cid =>
        let res := idx.Add file.Name cid file.Extension
        (st.SetFile file.Path
          { CID := cid, ModTime := file.ModTime, Size := file.Size,
            IndexID := res.1.ID },
         res.2, 1)

/-- The whole runScan processing loop: fold the per-file step over the
scanned files, each paired with its open/upload outcome. The third
component accumulates the total number of ipfsClient.Add calls. -/
def processFiles (st : state.State) (idx : index.Manager)
    (jobs : List (FileInfo × Bool × Option String)) :
    state.State × index.Manager × Nat :=
  jobs.foldl
    (fun acc job =>
      let r := processOneFile acc.1 acc.2.1 job.1 job.2.1 job.2.2
      (r.1, r.2.1, acc.2.2 + r.2.2))
    (st, idx, 0)

/-- The IPNS publish attempts at the end of runScan: first a DHT publish,
then on failure one retry with AllowOffline. Each Option String is the
name returned by ipfsClient.PublishIPNS, none meaning the call failed.
Returns the in-memory state at return and the state written to disk by
stateManager.Save (none when runScan returned before saving). -/
def ipnsPhase (st1 : state.State) (ipns1 ipns2 : Option String) :
    state.State × Option state.State :=
  match ipns1 with
  | some name =>
    let st2 := st1.SetIPNS name
    (st2, some st2)
  | none =>
    match ipns2 with
    | some name =>
      let st2 := st1.SetIPNS name
      (st2, some st2)
    | none => (st1, none)

/-- The tail of runScan after the per-file loop (main.go): when files
were uploaded (changed = true) the freshly uploaded index CID is stored
and the version incremented before the IPNS publish; when nothing
changed and no previous index CID exists, runScan returns at once
without touching IPNS or saving. -/
def runScanTail (st0 : state.State) (changed : Bool) (newIndexCID : String)
    (ipns1 ipns2 : Option String) : state.State × Option state.State :=
  if changed then
    ipnsPhase ((st0.SetLastIndexCID newIndexCID).IncrementVersion) ipns1 ipns2
  else if st0.LastIndexCID = "" then
    (st0, none)
  else
    ipnsPhase st0 ipns1 ipns2

/-- The announcement a periodic trigger publishes
(runPeriodicAnnouncementsStandalone → publishAnnouncementViaStandalone):
the state file is reloaded, and the unsigned message is built from
GetVersion(), GetIPNS(), len(GetAllFiles()) and time.Now().Unix() —
now is the wall time of this trigger. -/
def periodicAnnouncementMsg (st : state.State) (now : Int) :
    pubsub.AnnouncementMessage :=
  pubsub.NewAnnouncementMessage st.Version st.IPNS
    (Int.ofNat st.filesCount) now

end publisher



/-! Concrete fixtures used by the claim theorems below. -/

/-- Trivial instantiation of the crypto primitives satisfying the standard
contracts at the points the round-trip theorem needs them. -/
def trivialPrims : pubsub.CryptoPrims :=
  { pubOf := fun _ => List.replicate 32 0,
    edSign := fun _ _ => List.replicate 32 0,
    edVerify := fun _ _ _ => true,
    b64encode := fun _ => "AAAA",
    b64decode := fun _ => some (List.replicate 32 0),
    serialize := fun _ _ _ _ _ => [] }

/-- A message whose publicKey is not valid base64 but which passes Validate. -/
def msgC8 : pubsub.AnnouncementMessage :=
  { Version := 1, IPNS := "k51qzi5uqu5test", PublicKey := "x",
    CollectionSize := 0, Timestamp := 1, Signature := "c2ln" }

/-- State as left by a completed republish (version 1, two files). -/
def stC2 : state.State :=
  { Version := 1, IPNS := "k51qzi5uqu5abc", LastIndexCID := "QmIdx",
    Files := [("/m/a.mp3", { CID := "QmA", ModTime := 1700000000, Size := 100, IndexID := 1 }),
              ("/m/b.mp3", { CID := "QmB", ModTime := 1700000001, Size := 200, IndexID := 2 })] }

/-- Index file contents with an id gap, for the load/add/delete witness. -/
def rsC4 : List index.Record :=
  [{ ID := 1, CID := "QmA", Filename := "a.mp3", Extension := "mp3" },
   { ID := 5, CID := "QmB", Filename := "b.mp3", Extension := "mp3" }]

/-- A mutation run: add, delete, add again. -/
def opsC4 : List index.IndexOp :=
  [index.IndexOp.add "c.mp3" "QmC" "mp3",
   index.IndexOp.del "a.mp3",
   index.IndexOp.add "d.mp3" "QmD" "mp3"]

/-- A two-record index for the duplicate-filename witness. -/
def mC10 : index.Manager :=
  { records := [("a.mp3", { ID := 1, CID := "Qm1", Filename := "a.mp3", Extension := "mp3" }),
                ("b.mp3", { ID := 2, CID := "Qm2", Filename := "b.mp3", Extension := "mp3" })],
    nextID := 3 }

/-- Coherent state/index pair tracking one file (id 1, CID Qm1). -/
def stC1 : state.State :=
  { Version := 1, IPNS := "k51qzi5uqu5abc", LastIndexCID := "QmIdx",
    Files := [("/m/a.mp3", { CID := "Qm1", ModTime := 100, Size := 10, IndexID := 1 })] }

/-- Index matching stC1. -/
def idxC1 : index.Manager :=
  { records := [("a.mp3", { ID := 1, CID := "Qm1", Filename := "a.mp3", Extension := "mp3" })],
    nextID := 2 }

/-- The same file as tracked in stC1 but with changed mtime and size. -/
def fileC1 : publisher.FileInfo :=
  { Path := "/m/a.mp3", Name := "a.mp3", Extension := "mp3", Size := 15, ModTime := 200 }

/-- The file tracked in stC1, observed unchanged on disk. -/
def fileC5 : publisher.FileInfo :=
  { Path := "/m/a.mp3", Name := "a.mp3", Extension := "mp3", Size := 10, ModTime := 100 }

/-- State that tracks /dir1/a.mp3 only. -/
def stC6 : state.State :=
  { Version := 1, IPNS := "k51qzi5uqu5abc", LastIndexCID := "QmIdx",
    Files := [("/dir1/a.mp3", { CID := "Qm1", ModTime := 100, Size := 10, IndexID := 1 })] }

/-- Index already holding basename a.mp3 (from /dir1/a.mp3). -/
def idxC6 : index.Manager :=
  { records := [("a.mp3", { ID := 1, CID := "Qm1", Filename := "a.mp3", Extension := "mp3" })],
    nextID := 2 }

/-- A new file with the colliding basename under a different root. -/
def fileC6 : publisher.FileInfo :=
  { Path := "/dir2/a.mp3", Name := "a.mp3", Extension := "mp3", Size := 11, ModTime := 300 }

/-- State before a republish whose IPNS binding will fail. -/
def stC7 : state.State :=
  { Version := 3, IPNS := "k51qzi5uqu5old", LastIndexCID := "QmOld",
    Files := [("/m/a.mp3", { CID := "Qm1", ModTime := 100, Size := 10, IndexID := 1 })] }

/-! Claim theorems. -/

/-- Claim C3: for any private key and any version/ipns/collectionSize/
timestamp values, Verify succeeds on the message produced by Sign —
both sides serialize the same object minus the signature field in the
same field order, so given the standard contracts of base64 (decode
inverts encode) and Ed25519 (32-byte public keys; verification accepts
a signature made with the matching private key), the round trip holds. -/
theorem C3_sign_verify_roundtrip (P : pubsub.CryptoPrims)
    (m : pubsub.AnnouncementMessage) (privateKey : List Nat)
    (hpub : P.b64decode (P.b64encode (P.pubOf privateKey)) =
      some (P.pubOf privateKey))
    (hlen : (P.pubOf privateKey).length = 32)
    (hsig : ∀ data, P.b64decode (P.b64encode (P.edSign privateKey data)) =
      some (P.edSign privateKey data))
    (hver : ∀ data,
      P.edVerify (P.pubOf privateKey) data (P.edSign privateKey data) = true) :
    pubsub.Verify P (pubsub.Sign P m privateKey) = Except.ok () := by
  unfold pubsub.Verify pubsub.Sign pubsub.getBytesForSigning
  dsimp only
  rw [hpub]
  dsimp only
  rw [if_neg (fun h => h hlen), hsig]
  dsimp only
  rw [if_pos (hver _)]

/-- Witness for C3 at a concrete message, private key and primitive
instantiation satisfying the contracts. -/
theorem C3_witness :
    pubsub.Verify trivialPrims
      (pubsub.Sign trivialPrims (pubsub.NewAnnouncementMessage 1 "k51q" 2 100) [7]) =
      Except.ok () :=
  C3_sign_verify_roundtrip trivialPrims
    (pubsub.NewAnnouncementMessage 1 "k51q" 2 100) [7]
    rfl (by simp [trivialPrims]) (fun _ => rfl) (fun _ => rfl)

/-- Claim C8 (counterexample): the claimed receive-side validation is an
iff that includes a 32-byte check on the decoded publicKey, but this
message passes Validate while its publicKey is not even decodable
base64 — Validate only checks field presence and ranges; decoding,
length checks, ipns parsing and signature verification live in the
separate Verify method, which Validate does not call. -/
theorem C8_counterexample :
    pubsub.Validate msgC8 1 = Except.ok ()
      ∧ base64.b64decode msgC8.PublicKey = none :=
  ⟨rfl, by decide⟩

/-- Claim C8 (amended): an announcement message passes the receive-side
Validate(now) if and only if version >= 1, ipns nonempty, publicKey
nonempty, collectionSize >= 0, 0 < timestamp <= now + 3600, and
signature nonempty; Validate performs none of the decoding, length,
ipns-parse or signature checks. -/
theorem C8_validate_characterization (m : pubsub.AnnouncementMessage)
    (now : Int) :
    pubsub.Validate m now = Except.ok () ↔
      (1 ≤ m.Version ∧ m.IPNS ≠ "" ∧ m.PublicKey ≠ "" ∧ 0 ≤ m.CollectionSize
        ∧ 0 < m.Timestamp ∧ m.Timestamp ≤ now + 3600 ∧ m.Signature ≠ "") := by
  unfold pubsub.Validate
  split_ifs with h1 h2 h3 h4 h5 h6 h7
  · exact iff_of_false (fun h => h) (fun hc => absurd hc.1 (by omega))
  · exact iff_of_false (fun h => h) (fun hc => hc.2.1 h2)
  · exact iff_of_false (fun h => h) (fun hc => hc.2.2.1 h3)
  · exact iff_of_false (fun h => h) (fun hc => absurd hc.2.2.2.1 (by omega))
  · exact iff_of_false (fun h => h) (fun hc => absurd hc.2.2.2.2.1 (by omega))
  · exact iff_of_false (fun h => h) (fun hc => absurd hc.2.2.2.2.2.1 (by omega))
  · exact iff_of_false (fun h => h) (fun hc => hc.2.2.2.2.2.2 h7)
  · exact iff_of_true rfl ⟨by omega, h2, h3, by omega, by omega, by omega, h7⟩

/-- Claim C2 (counterexample): starting from the state left by a
republish at wall time 100 and changing nothing, the periodic trigger at
wall time 3700 publishes a message whose timestamp is 3700, not 100 —
the code stamps every announcement with time.Now() and keeps no
last-change timestamp at all; only version is carried over unchanged. -/
theorem C2_counterexample :
    (publisher.periodicAnnouncementMsg stC2 100).Timestamp = 100
      ∧ (publisher.periodicAnnouncementMsg stC2 3700).Version =
          (publisher.periodicAnnouncementMsg stC2 100).Version
      ∧ (publisher.periodicAnnouncementMsg stC2 3700).Timestamp = 3700
      ∧ ¬ (publisher.periodicAnnouncementMsg stC2 3700).Timestamp = 100 :=
  ⟨rfl, rfl, rfl, by decide⟩

/-- Claim C2 (amended): a periodic (timer-triggered) announcement carries
the wall-clock time of its own trigger as its timestamp, while version,
ipns and collection size are read from the unchanged state; the
timestamp of the previous announcement is not preserved (the state
stores no timestamp). -/
theorem C2_periodic_announcement (st : state.State) (now : Int) :
    (publisher.periodicAnnouncementMsg st now).Timestamp = now
      ∧ (publisher.periodicAnnouncementMsg st now).Version = st.Version
      ∧ (publisher.periodicAnnouncementMsg st now).IPNS = st.IPNS
      ∧ (publisher.periodicAnnouncementMsg st now).CollectionSize =
          Int.ofNat st.filesCount :=
  ⟨rfl, rfl, rfl, rfl⟩

/-- Claim C4: across any sequence of index operations the assigned ids
are strictly increasing and never reused: loading a non-empty index
(ids are non-negative in every file the program writes) sets the next id
to max(id)+1 and that maximum is attained by a record; an empty index
loads to next id 1; Add assigns the current next id and increments it;
Delete changes neither the next id nor any remaining record. -/
theorem C4_id_monotonicity (rs : List index.Record)
    (ops : List index.IndexOp) (f c e g : String)
    (hne : rs ≠ []) (hnn : ∀ r ∈ rs, 0 ≤ r.ID) (hg : g ≠ f) :
    ((index.loadRecords rs).nextID = index.maxId rs + 1
      ∧ index.maxId rs ∈ rs.map (fun r => r.ID))
    ∧ (index.loadRecords []).nextID = 1
    ∧ ((index.Manager.applyOps (index.loadRecords rs) ops).Add f c e).1.ID =
        (index.Manager.applyOps (index.loadRecords rs) ops).nextID
    ∧ ((index.Manager.applyOps (index.loadRecords rs) ops).Add f c e).2.nextID =
        (index.Manager.applyOps (index.loadRecords rs) ops).nextID + 1
    ∧ ((index.Manager.applyOps (index.loadRecords rs) ops).Delete f).2.nextID =
        (index.Manager.applyOps (index.loadRecords rs) ops).nextID
    ∧ ((index.Manager.applyOps (index.loadRecords rs) ops).Delete f).2.Get g =
        (index.Manager.applyOps (index.loadRecords rs) ops).Get g
    ∧ (index.assignedIds (index.loadRecords rs) ops).Pairwise
        (fun a b => a < b) :=
  ⟨⟨index.loadRecords_nextID rs, index.maxId_mem rs hne hnn⟩,
   index.loadRecords_nextID [],
   rfl, rfl,
   index.delete_nextID _ f,
   index.delete_get_other _ f g hg,
   index.assignedIds_pairwise ops _⟩

/-- Witness for C4 at a concrete loaded index and operation run. -/
theorem C4_witness :
    ((index.loadRecords rsC4).nextID = index.maxId rsC4 + 1
      ∧ index.maxId rsC4 ∈ rsC4.map (fun r => r.ID))
    ∧ (index.loadRecords []).nextID = 1
    ∧ ((index.Manager.applyOps (index.loadRecords rsC4) opsC4).Add
        "x.mp3" "QmX" "mp3").1.ID =
        (index.Manager.applyOps (index.loadRecords rsC4) opsC4).nextID
    ∧ ((index.Manager.applyOps (index.loadRecords rsC4) opsC4).Add
        "x.mp3" "QmX" "mp3").2.nextID =
        (index.Manager.applyOps (index.loadRecords rsC4) opsC4).nextID + 1
    ∧ ((index.Manager.applyOps (index.loadRecords rsC4) opsC4).Delete
        "x.mp3").2.nextID =
        (index.Manager.applyOps (index.loadRecords rsC4) opsC4).nextID
    ∧ ((index.Manager.applyOps (index.loadRecords rsC4) opsC4).Delete
        "x.mp3").2.Get "y.mp3" =
        (index.Manager.applyOps (index.loadRecords rsC4) opsC4).Get "y.mp3"
    ∧ (index.assignedIds (index.loadRecords rsC4) opsC4).Pairwise
        (fun a b => a < b) :=
  C4_id_monotonicity rsC4 opsC4 "x.mp3" "QmX" "mp3" "y.mp3"
    (by decide) (by decide) (by decide)

/-- Claim C9: Update or Delete on a filename absent from the index
returns a record-not-found error and leaves the index unchanged — same
records map and same next id. -/
theorem C9_update_delete_missing (m : index.Manager) (f c : String)
    (h : m.Get f = none) :
    (m.Update f c).1 = Except.error ("record not found: " ++ f)
      ∧ (m.Update f c).2 = m
      ∧ (m.Delete f).1 = Except.error ("record not found: " ++ f)
      ∧ (m.Delete f).2 = m := by
  have h' : gomap.findA m.records f = none := h
  unfold index.Manager.Update index.Manager.Delete
  rw [h']
  exact ⟨rfl, rfl, rfl, rfl⟩

/-- Witness for C9 on the empty index. -/
theorem C9_witness :
    (index.New.Update "a.mp3" "QmZ").1 =
        Except.error ("record not found: " ++ "a.mp3")
      ∧ (index.New.Update "a.mp3" "QmZ").2 = index.New
      ∧ (index.New.Delete "a.mp3").1 =
          Except.error ("record not found: " ++ "a.mp3")
      ∧ (index.New.Delete "a.mp3").2 = index.New :=
  C9_update_delete_missing index.New "a.mp3" "QmZ" rfl

/-- Claim C10: Add on a filename already present silently replaces the
existing record with a fresh one carrying the next id: the map keeps one
record per filename, Count is unchanged, the next id still increments,
and the replaced id disappears from the index. (Hypotheses state the
invariants every reachable index satisfies: distinct keys, distinct ids,
all ids below nextID.) -/
theorem C10_add_replaces (m : index.Manager) (f c e : String)
    (r : index.Record)
    (hnd : gomap.KeysNodup m.records)
    (hlt : ∀ p ∈ m.records, p.2.ID < m.nextID)
    (hids : ∀ p ∈ m.records, ∀ q ∈ m.records, p.1 ≠ q.1 → p.2.ID ≠ q.2.ID)
    (hf : m.Get f = some r) :
    (m.Add f c e).1.ID = m.nextID
      ∧ (m.Add f c e).2.nextID = m.nextID + 1
      ∧ (m.Add f c e).2.Get f = some (m.Add f c e).1
      ∧ (m.Add f c e).2.Count = m.Count
      ∧ r.ID ∉ (m.Add f c e).2.records.map (fun p => p.2.ID) := by
  have hf' : gomap.findA m.records f = some r := hf
  have hrmem : (f, r) ∈ m.records := gomap.findA_some_mem hf'
  refine ⟨rfl, rfl, ?_, ?_, ?_⟩
  · show gomap.findA (gomap.insertA m.records f _) f = _
    rw [gomap.findA_insertA, if_pos rfl]
    rfl
  · show (gomap.insertA m.records f _).length = m.records.length
    unfold gomap.insertA
    rw [List.length_cons, gomap.length_eraseA_of_mem hnd hf']
  · intro hmem
    rcases List.mem_map.mp hmem with ⟨p, hp, hid⟩
    rcases List.mem_cons.mp hp with hh | ht
    · have htop : p.2.ID = m.nextID := by rw [hh]
      have : r.ID < m.nextID := hlt (f, r) hrmem
      omega
    · rcases gomap.mem_eraseA ht with ⟨hmem2, hne⟩
      exact hids p hmem2 (f, r) hrmem hne hid

/-- Witness for C10: re-adding basename a.mp3 on a two-record index. -/
theorem C10_witness :
    (mC10.Add "a.mp3" "QmN" "mp3").1.ID = mC10.nextID
      ∧ (mC10.Add "a.mp3" "QmN" "mp3").2.nextID = mC10.nextID + 1
      ∧ (mC10.Add "a.mp3" "QmN" "mp3").2.Get "a.mp3" =
          some (mC10.Add "a.mp3" "QmN" "mp3").1
      ∧ (mC10.Add "a.mp3" "QmN" "mp3").2.Count = mC10.Count
      ∧ (1 : Int) ∉ (mC10.Add "a.mp3" "QmN" "mp3").2.records.map
          (fun p => p.2.ID) :=
  C10_add_replaces mC10 "a.mp3" "QmN" "mp3"
    { ID := 1, CID := "Qm1", Filename := "a.mp3", Extension := "mp3" }
    (by unfold gomap.KeysNodup; decide) (by decide) (by decide) (by decide)

/-- Claim C5: a scanned file whose (mtime, size) both match the values
recorded in state for its path is skipped: zero ipfsClient.Add calls,
and the state and the index are returned exactly as they were. -/
theorem C5_unchanged_skipped (st : state.State) (idx : index.Manager)
    (file : publisher.FileInfo) (openOk : Bool) (addResult : Option String)
    (fs : state.FileState)
    (hfs : st.GetFile file.Path = some fs)
    (hmt : fs.ModTime = file.ModTime) (hsz : fs.Size = file.Size) :
    publisher.processOneFile st idx file openOk addResult = (st, idx, 0) := by
  unfold publisher.processOneFile
  rw [hfs]
  exact if_pos ⟨hmt, hsz⟩

/-- Witness for C5: the tracked file observed with identical mtime/size. -/
theorem C5_witness :
    publisher.processOneFile stC1 idxC1 fileC5 true (some "QmZ") =
      (stC1, idxC1, 0) :=
  C5_unchanged_skipped stC1 idxC1 fileC5 true (some "QmZ")
    { CID := "Qm1", ModTime := 100, Size := 10, IndexID := 1 }
    (by decide) rfl rfl

/-- Claim C1: the invariant fails on the code. Starting from a coherent
state/index pair (path /m/a.mp3 tracked with CID Qm1, index id 1) and a
reconciliation batch that re-uploads the file because its (mtime, size)
changed (upload returns Qm2), the batch updates the index entry to Qm2
but leaves the state record at Qm1 with the stale mtime and size: the
modified branch of runScan calls indexMgr.Update but never
stateManager.SetFile, so afterwards no index entry carries the state
record CID and the file is re-uploaded on every later scan. -/
theorem C1_modified_file_state_stale :
    publisher.processFiles stC1 idxC1 [(fileC1, true, some "Qm2")] =
      (stC1,
       { records := [("a.mp3",
           { ID := 1, CID := "Qm2", Filename := "a.mp3", Extension := "mp3" })],
         nextID := 2 },
       1)
    ∧ stC1.GetFile "/m/a.mp3" =
        some { CID := "Qm1", ModTime := 100, Size := 10, IndexID := 1 }
    ∧ (publisher.processFiles stC1 idxC1 [(fileC1, true, some "Qm2")]).2.1.Get
        "a.mp3" =
        some { ID := 1, CID := "Qm2", Filename := "a.mp3", Extension := "mp3" }
    ∧ ¬ ("Qm1" : String) = "Qm2" := by
  refine ⟨by decide, rfl, by decide, by decide⟩

/-- Claim C6 (counterexample): the index already holds basename a.mp3
(for /dir1/a.mp3, id 1, CID Qm1); the sync engine then adds
/dir2/a.mp3, whose basename collides. The resulting index maps the bare
basename a.mp3 to a fresh record (id 2, CID Qm2) whose filename is the
basename — not a root-relative path — and the previously existing
record (id 1, CID Qm1) has been silently replaced, not left unchanged. -/
theorem C6_counterexample :
    (publisher.processOneFile stC6 idxC6 fileC6 true (some "Qm2")).2.1.records =
      [("a.mp3",
        { ID := 2, CID := "Qm2", Filename := "a.mp3", Extension := "mp3" })]
    ∧ (publisher.processOneFile stC6 idxC6 fileC6 true
        (some "Qm2")).2.1.Get "dir2/a.mp3" = none
    ∧ idxC6.Get "a.mp3" =
        some { ID := 1, CID := "Qm1", Filename := "a.mp3", Extension := "mp3" } := by
  refine ⟨by decide, by decide, rfl⟩

/-- Claim C6 (amended): when the sync engine adds a file whose path is
new to the state but whose basename is already a key of the index, the
record is created under the bare basename (filename equals the
basename, no root-relative path), silently replacing the colliding
record; entries under other filenames are untouched. -/
theorem C6_basename_collision_replaces (st : state.State)
    (idx : index.Manager) (file : publisher.FileInfo) (cid : String)
    (r : index.Record) (g : String)
    (hnew : st.GetFile file.Path = none)
    (hcol : idx.Get file.Name = some r)
    (hg : g ≠ file.Name) :
    (publisher.processOneFile st idx file true (some cid)).2.1.Get file.Name =
        some { ID := idx.nextID, CID := cid, Filename := file.Name,
               Extension := file.Extension }
      ∧ (publisher.processOneFile st idx file true (some cid)).2.1.Get g =
          idx.Get g := by
  unfold publisher.processOneFile
  rw [hnew]
  constructor
  · show gomap.findA (gomap.insertA idx.records file.Name _) file.Name = _
    rw [gomap.findA_insertA, if_pos rfl]
  · show gomap.findA (gomap.insertA idx.records file.Name _) g = _
    rw [gomap.findA_insertA, if_neg (fun h => hg h.symm)]
    rfl

/-- Witness for C6 (amended) at the counterexample fixture. -/
theorem C6_witness :
    (publisher.processOneFile stC6 idxC6 fileC6 true (some "Qm2")).2.1.Get
        "a.mp3" =
        some { ID := 2, CID := "Qm2", Filename := "a.mp3", Extension := "mp3" }
      ∧ (publisher.processOneFile stC6 idxC6 fileC6 true
          (some "Qm2")).2.1.Get "b.mp3" = idxC6.Get "b.mp3" :=
  C6_basename_collision_replaces stC6 idxC6 fileC6 "Qm2"
    { ID := 1, CID := "Qm1", Filename := "a.mp3", Extension := "mp3" }
    "b.mp3" (by decide) rfl (by decide)

/-- Claim C7 (counterexample): version 3 state, files were uploaded, the
index upload succeeded (QmNew), and both IPNS attempts — the DHT publish
and the offline-mode retry — failed. runScan then returns early: the
in-memory version is 4, but nothing is saved to disk (no Save call), so
the version increment claimed to be persisted is lost. -/
theorem C7_counterexample :
    (publisher.runScanTail stC7 true "QmNew" none none).2 = none
      ∧ (publisher.runScanTail stC7 true "QmNew" none none).1.Version = 4
      ∧ stC7.Version = 3 := by
  refine ⟨rfl, rfl, rfl⟩

/-- Claim C7 (amended): when the IPNS binding fails even after the
offline-mode retry, runScan returns without calling Save: the version
increment performed in memory for this republish is not persisted (the
on-disk state keeps the old version), and the binding, the state save
and the announcement all wait for the next republish. When either IPNS
attempt succeeds, the state saved to disk carries version + 1. -/
theorem C7_ipns_failure_skips_save (st0 : state.State) (cid name : String) :
    ((publisher.runScanTail st0 true cid none none).1.Version =
        st0.Version + 1)
      ∧ ((publisher.runScanTail st0 true cid none none).2 = none)
      ∧ ((publisher.runScanTail st0 true cid (some name) none).2 =
          some (publisher.runScanTail st0 true cid (some name) none).1)
      ∧ ((publisher.runScanTail st0 true cid (some name) none).1.Version =
          st0.Version + 1)
      ∧ ((publisher.runScanTail st0 true cid none (some name)).2 =
          some (publisher.runScanTail st0 true cid none (some name)).1)
      ∧ ((publisher.runScanTail st0 true cid none (some name)).1.Version =
          st0.Version + 1) :=
  ⟨rfl, rfl, rfl, rfl, rfl, rfl⟩
